import Mathlib

/-!
Verification of the sampling-rate simulator core (`matchesRule` and
`simulateSampling` from the sampling-rate calculator module).

The JavaScript source is shallowly embedded:
* span groups are records with an attribute map (string keys to string
  values, absent key read as the empty string) and a non-negative count;
* the dataset's optional `_totalCountFromMeta` extra property is made an
  explicit optional field `declaredTotal`;
* JavaScript numbers are modelled as exact rationals (`ℚ`);
* the JavaScript regular-expression engine is modelled by an explicit
  parameter `compileRegex : String → Option (String → Bool)`; `none`
  stands for a pattern on which `new RegExp` throws, `some test` for a
  successfully compiled regex with its test function;
* string helpers (`toLowerCase`, `trim`, `includes`, `startsWith`,
  `endsWith`) are implemented over the character list of the string;
* the stable `Array.prototype.sort` (stable per the ECMAScript spec) is
  embedded as `List.mergeSort`, which is stable, with the boolean
  ordering derived from the source's comparator.
-/

namespace SampleRateSimulator

/-- One sampling rule, `{ attribute, operator, value, rate }` in the
source.  The field `attribute` is renamed `attr` because `attribute` is
a reserved word in Lean.  `rate` is a percentage (0–100). -/
structure Rule where
  attr : String
  operator : String
  value : String
  rate : ℚ
deriving DecidableEq, Repr

/-- One aggregated span group: the attribute map (string keyed) plus the
occurrence count.  Per the data model the count is a non-negative
integer, so it is a `Nat`. -/
structure SpanGroup where
  attrs : List (String × String)
  count : Nat
deriving DecidableEq, Repr

/-- Reading `item[rule.attribute] || ''` from the source: an absent key
yields the empty string. -/
def SpanGroup.getAttr (item : SpanGroup) (a : String) : String :=
  (item.attrs.lookup a).getD ""

/-- The input dataset: the group array, plus the optional
`_totalCountFromMeta` extra property made explicit. -/
structure Dataset where
  groups : List SpanGroup
  declaredTotal : Option Nat
deriving DecidableEq, Repr

/-- One row of the result breakdown (the source spreads the original
item and adds the four derived fields; the spread attribute map is kept
in `attrs`). -/
structure BreakdownRow where
  attrs : List (String × String)
  rawCount : ℚ
  simulatedCount : ℚ
  samplingRate : ℚ
  matchedRule : String
deriving DecidableEq, Repr

/-- The simulator's result object. -/
structure SimulationResult where
  totalRawCount : ℚ
  totalSimulatedCount : ℚ
  breakdown : List BreakdownRow
  costReduction : ℚ
  monthlyRawCount : ℚ
  monthlySimulatedCount : ℚ
deriving DecidableEq, Repr

/-- JavaScript `toLowerCase`, character by character. -/
def toLowerStr (s : String) : String :=
  String.mk (s.data.map Char.toLower)

/-- JavaScript `String.prototype.trim`: strip whitespace from both
ends. -/
def trimStr (s : String) : String :=
  String.mk (((s.data.dropWhile Char.isWhitespace).reverse.dropWhile
    Char.isWhitespace).reverse)

/-- Substring containment on character lists (JavaScript `includes`).
The empty needle is contained in everything. -/
def listContains (s sub : List Char) : Bool :=
  match s with
  | [] => sub.isEmpty
  | _ :: t => sub.isPrefixOf s || listContains t sub

/-- JavaScript `String.prototype.includes`. -/
def strContains (s sub : String) : Bool :=
  listContains s.data sub.data

/-- JavaScript `String.prototype.startsWith`. -/
def strStartsWith (s pre : String) : Bool :=
  pre.data.isPrefixOf s.data

/-- JavaScript `String.prototype.endsWith`. -/
def strEndsWith (s suf : String) : Bool :=
  suf.data.isSuffixOf s.data

/-- Embedding of `matchesRule(item, rule)` (source lines 12–44).
Empty rule attribute or rule value exits false; the span value is read
with `|| ''`; the rule value is trimmed; an empty span value exits
false; then the operator (defaulted to `contains` when falsy) selects a
case-insensitive comparison, `regex` going through `compileRegex` with a
failed compilation (the source's caught exception) giving false, and an
unknown operator falling back to containment. -/
def matchesRule (compileRegex : String → Option (String → Bool))
    (item : SpanGroup) (rule : Rule) : Bool :=
  if rule.attr = "" ∨ rule.value = "" then false
  else
    let spanValue := item.getAttr rule.attr
    let ruleValue := trimStr rule.value
    let op := if rule.operator = "" then "contains" else rule.operator
    if spanValue = "" then false
    else if op = "equals" then toLowerStr spanValue == toLowerStr ruleValue
    else if op = "contains" then
      strContains (toLowerStr spanValue) (toLowerStr ruleValue)
    else if op = "starts_with" then
      strStartsWith (toLowerStr spanValue) (toLowerStr ruleValue)
    else if op = "ends_with" then
      strEndsWith (toLowerStr spanValue) (toLowerStr ruleValue)
    else if op = "regex" then
      match compileRegex ruleValue with
      | some test => test spanValue
      | none => false
    else strContains (toLowerStr spanValue) (toLowerStr ruleValue)

/-- Boolean order derived from the source's sort comparator
(`-1` when `a` is an equals rule and `b` is not, `1` in the symmetric
case, `0` otherwise): `a ≤ b` iff the comparator does not return `1`. -/
def ruleLE (a b : Rule) : Bool :=
  !(b.operator == "equals" && !(a.operator == "equals"))

/-- The source's `[...rules].sort(...)`: a stable sort by `ruleLE`. -/
def sortedRules (rules : List Rule) : List Rule :=
  rules.mergeSort ruleLE

/-- Per-group work of the simulator loop (source lines 97–124): find the
first matching rule in the pre-sorted list, take its `rate / 100` (else
the global rate), and build the breakdown row. -/
def mkRow (compileRegex : String → Option (String → Bool))
    (globalRate expansionFactor : ℚ) (sorted : List Rule)
    (item : SpanGroup) : BreakdownRow :=
  let count : ℚ := item.count
  match sorted.find? (fun r => matchesRule compileRegex item r) with
  | some r =>
      { attrs := item.attrs
      , rawCount := count
      , simulatedCount := count * (r.rate / 100) * expansionFactor
      , samplingRate := r.rate / 100
      , matchedRule := r.attr ++ ":" ++ r.value }
  | none =>
      { attrs := item.attrs
      , rawCount := count
      , simulatedCount := count * globalRate * expansionFactor
      , samplingRate := globalRate
      , matchedRule := "global" }

/-- Sum of the groups' raw counts (`rawData.reduce(...)`). -/
def sumCounts (groups : List SpanGroup) : Nat :=
  (groups.map SpanGroup.count).sum

/-- The synthetic breakdown row for the missing spans (source lines
136–143).  The source interpolates the missing count into the
description string; the description is kept as a fixed placeholder. -/
def otherRow (missingSpans globalRate expansionFactor : ℚ) : BreakdownRow :=
  { attrs := [("span.op", "(other)"),
              ("span.description", "Other spans (not in top 100 groups)")]
  , rawCount := missingSpans
  , simulatedCount := missingSpans * globalRate * expansionFactor
  , samplingRate := globalRate
  , matchedRule := "global" }

/-- The all-zero result returned for an empty dataset. -/
def emptyResult : SimulationResult :=
  { totalRawCount := 0
  , totalSimulatedCount := 0
  , breakdown := []
  , costReduction := 0
  , monthlyRawCount := 0
  , monthlySimulatedCount := 0 }

/-- Embedding of `simulateSampling(rawData, rules, expansionFactor,
globalRate, days)` (source lines 55–165). -/
def simulateSampling (compileRegex : String → Option (String → Bool))
    (rawData : Dataset) (rules : List Rule)
    (expansionFactor globalRate days : ℚ) : SimulationResult :=
  if rawData.groups = [] then emptyResult
  else
    let sumOfGroups : ℚ := (sumCounts rawData.groups : ℚ)
    let totalRawCount : ℚ :=
      match rawData.declaredTotal with
      | some t => (t : ℚ)
      | none => sumOfGroups
    let missingSpans : ℚ := totalRawCount - sumOfGroups
    let rows := rawData.groups.map
      (mkRow compileRegex globalRate expansionFactor (sortedRules rules))
    let groupsSimulated := (rows.map BreakdownRow.simulatedCount).sum
    let totalSimulatedCount :=
      if missingSpans > 0 then
        groupsSimulated + missingSpans * globalRate * expansionFactor
      else groupsSimulated
    let breakdown :=
      if missingSpans > 0 then
        rows ++ [otherRow missingSpans globalRate expansionFactor]
      else rows
    let costReduction :=
      if totalRawCount > 0 then
        (totalRawCount - totalSimulatedCount) / totalRawCount * 100
      else 0
    let periodMultiplier : ℚ := 30 / days
    { totalRawCount := totalRawCount
    , totalSimulatedCount := totalSimulatedCount
    , breakdown := breakdown
    , costReduction := max 0 costReduction
    , monthlyRawCount := totalRawCount * periodMultiplier
    , monthlySimulatedCount := totalSimulatedCount * periodMultiplier }

/-- Total raw count as resolved by the simulator (source lines 70–78):
the declared total when present, else the sum of the group counts. -/
def totalRawOf (d : Dataset) : ℚ :=
  match d.declaredTotal with
  | some t => (t : ℚ)
  | none => (sumCounts d.groups : ℚ)

/-- The missing-span count (source line 81). -/
def missingOf (d : Dataset) : ℚ :=
  totalRawOf d - (sumCounts d.groups : ℚ)

/-- The per-group breakdown rows, in dataset order. -/
def rowsOf (compileRegex : String → Option (String → Bool)) (d : Dataset)
    (rules : List Rule) (globalRate expansionFactor : ℚ) : List BreakdownRow :=
  d.groups.map (mkRow compileRegex globalRate expansionFactor (sortedRules rules))

/-- Sum of the per-group simulated counts. -/
def groupsSimOf (compileRegex : String → Option (String → Bool)) (d : Dataset)
    (rules : List Rule) (globalRate expansionFactor : ℚ) : ℚ :=
  ((rowsOf compileRegex d rules globalRate expansionFactor).map
    BreakdownRow.simulatedCount).sum

/-- The final simulated total, with the missing-span contribution when
`missing > 0` (source lines 129–131). -/
def simTotalOf (compileRegex : String → Option (String → Bool)) (d : Dataset)
    (rules : List Rule) (globalRate expansionFactor : ℚ) : ℚ :=
  if missingOf d > 0 then
    groupsSimOf compileRegex d rules globalRate expansionFactor
      + missingOf d * globalRate * expansionFactor
  else groupsSimOf compileRegex d rules globalRate expansionFactor

/-- The final breakdown, with the synthetic row when `missing > 0`
(source lines 136–143). -/
def breakdownOf (compileRegex : String → Option (String → Bool)) (d : Dataset)
    (rules : List Rule) (globalRate expansionFactor : ℚ) : List BreakdownRow :=
  if missingOf d > 0 then
    rowsOf compileRegex d rules globalRate expansionFactor
      ++ [otherRow (missingOf d) globalRate expansionFactor]
  else rowsOf compileRegex d rules globalRate expansionFactor

/-- A regex oracle that fails to compile every pattern; used for the
concrete witnesses (none of their rules uses the `regex` operator, except
the deliberately invalid one). -/
def crNone : String → Option (String → Bool) := fun _ => none

/-- Sample group (the spec's end-to-end scenario). -/
def gHttp : SpanGroup := ⟨[("span.op", "http.server")], 1000⟩

/-- Sample group (the spec's end-to-end scenario). -/
def gDb : SpanGroup := ⟨[("span.op", "db.query")], 500⟩

/-- Sample equals rule at 10%. -/
def ruleEq : Rule := ⟨"span.op", "equals", "db.query", 10⟩

/-- Sample contains rule at 50%. -/
def ruleCon : Rule := ⟨"span.op", "contains", "query", 50⟩

/-- Sample rule with an invalid regex pattern. -/
def ruleBadRe : Rule := ⟨"span.op", "regex", "[", 10⟩

/-- Sample rule whose value is whitespace only. -/
def ruleWs : Rule := ⟨"span.op", "contains", "   ", 30⟩

/-- Sample rule with an empty value. -/
def ruleEmptyVal : Rule := ⟨"span.op", "equals", "", 10⟩

/-- Sample dataset without a declared total. -/
def dsEx : Dataset := ⟨[gHttp, gDb], none⟩

/-- Sample dataset with a declared total larger than the group sum. -/
def dsDecl : Dataset := ⟨[⟨[("span.op", "http.server")], 700⟩], some 1000⟩

/-- Sample empty dataset. -/
def dsEmpty : Dataset := ⟨[], none⟩

/-- Sample group without a `span.op` attribute. -/
def gNoOp : SpanGroup := ⟨[("span.description", "SELECT 1")], 100⟩

theorem ruleLE_trans : ∀ a b c : Rule,
    ruleLE a b = true → ruleLE b c = true → ruleLE a c = true := by
  intro a b c
  unfold ruleLE
  cases ha : a.operator == "equals" <;> cases hb : b.operator == "equals" <;>
    cases hc : c.operator == "equals" <;> simp [ha, hb, hc]

theorem ruleLE_total : ∀ a b : Rule, (ruleLE a b || ruleLE b a) = true := by
  intro a b
  unfold ruleLE
  cases ha : a.operator == "equals" <;> cases hb : b.operator == "equals" <;>
    simp [ha, hb]

/-- The stable sort by the source's comparator is exactly the stable
two-class partition: equals rules first, then the others, each block in
original order. -/
theorem sortedRules_eq_filter (rules : List Rule) :
    sortedRules rules
      = rules.filter (fun r => r.operator == "equals")
        ++ rules.filter (fun r => !(r.operator == "equals")) := by
  induction rules with
  | nil => simp [sortedRules]
  | cons a l ih =>
    obtain ⟨l₁, l₂, h₁, h₂, h₃⟩ := List.mergeSort_cons ruleLE_trans ruleLE_total a l
    unfold sortedRules at ih ⊢
    have key : l₁ ++ l₂
        = l.filter (fun r => r.operator == "equals")
          ++ l.filter (fun r => !(r.operator == "equals")) := h₂.symm.trans ih
    cases ha : a.operator == "equals"
    · -- a is not an equals rule
      have hmem₁ : ∀ b ∈ l₁, (b.operator == "equals") = true := by
        intro b hb
        have hba := h₃ b hb
        simpa [ruleLE, ha] using hba
      have hmem₂ : ∀ b ∈ l₂, (b.operator == "equals") = false := by
        have hs := List.sorted_mergeSort ruleLE_trans ruleLE_total (a :: l)
        rw [h₁] at hs
        have h₂₂ := (List.pairwise_append.mp hs).2.1
        intro b hb
        have hab := (List.pairwise_cons.mp h₂₂).1 b hb
        simpa [ruleLE, ha] using hab
      have e₁ : (l₁ ++ l₂).filter (fun r => r.operator == "equals") = l₁ := by
        rw [List.filter_append, List.filter_eq_self.mpr hmem₁,
          List.filter_eq_nil_iff.mpr (by intro b hb; simp [hmem₂ b hb]),
          List.append_nil]
      have e₂ : (l₁ ++ l₂).filter (fun r => !(r.operator == "equals")) = l₂ := by
        rw [List.filter_append,
          List.filter_eq_nil_iff.mpr (by intro b hb; simp [hmem₁ b hb]),
          List.filter_eq_self.mpr (by intro b hb; simp [hmem₂ b hb]),
          List.nil_append]
      have e₃ : (l.filter (fun r => r.operator == "equals")).filter
            (fun r => r.operator == "equals")
          = l.filter (fun r => r.operator == "equals") :=
        List.filter_eq_self.mpr (fun b hb => (List.mem_filter.mp hb).2)
      have e₄ : (l.filter (fun r => !(r.operator == "equals"))).filter
            (fun r => r.operator == "equals") = [] :=
        List.filter_eq_nil_iff.mpr
          (fun b hb => by simpa using (List.mem_filter.mp hb).2)
      have e₅ : (l.filter (fun r => r.operator == "equals")).filter
            (fun r => !(r.operator == "equals")) = [] :=
        List.filter_eq_nil_iff.mpr
          (fun b hb => by simpa using (List.mem_filter.mp hb).2)
      have e₆ : (l.filter (fun r => !(r.operator == "equals"))).filter
            (fun r => !(r.operator == "equals"))
          = l.filter (fun r => !(r.operator == "equals")) :=
        List.filter_eq_self.mpr (fun b hb => (List.mem_filter.mp hb).2)
      have hf₁ : l₁ = l.filter (fun r => r.operator == "equals") := by
        rw [← e₁, key, List.filter_append, e₃, e₄, List.append_nil]
      have hf₂ : l₂ = l.filter (fun r => !(r.operator == "equals")) := by
        rw [← e₂, key, List.filter_append, e₅, e₆, List.nil_append]
      rw [h₁, List.filter_cons_of_neg (by simp [ha]),
        List.filter_cons_of_pos (by simp [ha]), hf₁, hf₂]
    · -- a is an equals rule: nothing can precede it
      have hl₁ : l₁ = [] := by
        rw [List.eq_nil_iff_forall_not_mem]
        intro b hb
        have hba := h₃ b hb
        simp [ruleLE, ha] at hba
      subst hl₁
      simp only [List.nil_append] at h₁ key
      rw [h₁, List.filter_cons_of_pos (by simp [ha]),
        List.filter_cons_of_neg (by simp [ha]), key, List.cons_append]

/-- Unfolding of the simulator for a non-empty dataset, phrased through
the named helper definitions. -/
theorem simulateSampling_nonempty (compileRegex : String → Option (String → Bool))
    (d : Dataset) (rules : List Rule) (ef gr days : ℚ) (hg : d.groups ≠ []) :
    simulateSampling compileRegex d rules ef gr days =
      { totalRawCount := totalRawOf d
      , totalSimulatedCount := simTotalOf compileRegex d rules gr ef
      , breakdown := breakdownOf compileRegex d rules gr ef
      , costReduction := max 0 (if totalRawOf d > 0 then
          (totalRawOf d - simTotalOf compileRegex d rules gr ef) / totalRawOf d * 100
        else 0)
      , monthlyRawCount := totalRawOf d * (30 / days)
      , monthlySimulatedCount := simTotalOf compileRegex d rules gr ef * (30 / days) } := by
  unfold simulateSampling simTotalOf breakdownOf groupsSimOf rowsOf missingOf totalRawOf
  rw [if_neg hg]

/-- The row builder only looks at the outcome of the first-match search. -/
theorem mkRow_congr (compileRegex : String → Option (String → Bool))
    (gr ef : ℚ) (s₁ s₂ : List Rule) (item : SpanGroup)
    (h : s₁.find? (fun r => matchesRule compileRegex item r)
       = s₂.find? (fun r => matchesRule compileRegex item r)) :
    mkRow compileRegex gr ef s₁ item = mkRow compileRegex gr ef s₂ item := by
  unfold mkRow
  rw [h]

/-- Two rule lists giving the same first match on every group give the
same simulation result. -/
theorem simulateSampling_congr (compileRegex : String → Option (String → Bool))
    (d : Dataset) (rules₁ rules₂ : List Rule) (ef gr days : ℚ)
    (h : ∀ item, (sortedRules rules₁).find? (fun r => matchesRule compileRegex item r)
               = (sortedRules rules₂).find? (fun r => matchesRule compileRegex item r)) :
    simulateSampling compileRegex d rules₁ ef gr days
      = simulateSampling compileRegex d rules₂ ef gr days := by
  have hrows : d.groups.map (mkRow compileRegex gr ef (sortedRules rules₁))
             = d.groups.map (mkRow compileRegex gr ef (sortedRules rules₂)) :=
    List.map_congr_left (fun item _ => mkRow_congr compileRegex gr ef _ _ item (h item))
  unfold simulateSampling
  rw [hrows]

/-- Dropping a never-matching element does not change a first-match
search. -/
theorem find?_middle_of_neg {α : Type} (p : α → Bool) (l₁ l₂ : List α) (x : α)
    (hx : p x = false) :
    (l₁ ++ x :: l₂).find? p = (l₁ ++ l₂).find? p := by
  rw [List.find?_append, List.find?_append, List.find?_cons_of_neg _ (by simp [hx])]

/-- A regex rule whose pattern fails to compile matches nothing (the
source catches the `RegExp` constructor exception and returns false). -/
theorem matchesRule_regex_none (compileRegex : String → Option (String → Bool))
    (rule : Rule) (hop : rule.operator = "regex")
    (hbad : compileRegex (trimStr rule.value) = none) :
    ∀ item : SpanGroup, matchesRule compileRegex item rule = false := by
  intro item
  unfold matchesRule
  split
  · rfl
  · simp [hop, hbad]

/-- Containment of the empty string always holds. -/
theorem listContains_nil (s : List Char) : listContains s [] = true := by
  cases s <;> simp [listContains, List.isPrefixOf]

/-- Changing only a rule's rate changes neither whether it matches. -/
theorem matchesRule_rate_irrel (compileRegex : String → Option (String → Bool))
    (item : SpanGroup) (r : Rule) (q : ℚ) :
    matchesRule compileRegex item { r with rate := q }
      = matchesRule compileRegex item r := rfl

/-- The sorted list for a rule list with one distinguished rule has the
same shape when only that rule's rate changes: the rule sits at the same
position, everything around it unchanged. -/
theorem sortedRules_insert_shape (pre post : List Rule) (r : Rule) (q : ℚ) :
    ∃ a b, sortedRules (pre ++ r :: post) = a ++ r :: b
         ∧ sortedRules (pre ++ { r with rate := q } :: post)
             = a ++ { r with rate := q } :: b := by
  cases ha : r.operator == "equals"
  · refine ⟨(pre ++ post).filter (fun x => x.operator == "equals")
        ++ pre.filter (fun x => !(x.operator == "equals")),
      post.filter (fun x => !(x.operator == "equals")), ?_, ?_⟩ <;>
    · rw [sortedRules_eq_filter]
      simp [List.filter_append, ha, List.append_assoc]
  · refine ⟨pre.filter (fun x => x.operator == "equals"),
      post.filter (fun x => x.operator == "equals")
        ++ (pre ++ post).filter (fun x => !(x.operator == "equals")), ?_, ?_⟩ <;>
    · rw [sortedRules_eq_filter]
      simp [List.filter_append, ha, List.append_assoc]

/-- Raising the distinguished rule's rate can only raise a group's
simulated count, whatever the first match for that group is. -/
theorem mkRow_simulated_mono (compileRegex : String → Option (String → Bool))
    (gr ef : ℚ) (hef : 0 ≤ ef) (a b : List Rule) (r : Rule) (q : ℚ)
    (hr : r.rate ≤ q) (item : SpanGroup) :
    (mkRow compileRegex gr ef (a ++ r :: b) item).simulatedCount
      ≤ (mkRow compileRegex gr ef (a ++ { r with rate := q } :: b) item).simulatedCount := by
  unfold mkRow
  rw [List.find?_append, List.find?_append]
  cases hfa : a.find? (fun rr => matchesRule compileRegex item rr) with
  | some x => simp
  | none =>
    simp only [Option.none_or]
    cases hm : matchesRule compileRegex item r with
    | false =>
      rw [List.find?_cons_of_neg _ (by simp [hm]),
        List.find?_cons_of_neg _ (by simp [matchesRule_rate_irrel, hm])]
    | true =>
      rw [List.find?_cons_of_pos _ hm,
        List.find?_cons_of_pos _ (by simp [matchesRule_rate_irrel, hm])]
      have h0 : (0 : ℚ) ≤ (item.count : ℚ) := by positivity
      have hdiv : r.rate / 100 ≤ q / 100 := by linarith
      simpa using
        mul_le_mul_of_nonneg_right (mul_le_mul_of_nonneg_left hdiv h0) hef

/-- C5: the matcher returns false immediately when the rule's attribute
is empty, when the rule's value is empty, or when the record's value for
the rule's attribute is absent or empty; in particular a rule with an
empty value matches no record, and an absent attribute never matches
even against an empty-string rule value. -/
theorem claim_C5 (compileRegex : String → Option (String → Bool))
    (item : SpanGroup) (rule : Rule)
    (h : rule.attr = "" ∨ rule.value = ""
       ∨ item.attrs.lookup rule.attr = none
       ∨ item.attrs.lookup rule.attr = some "") :
    matchesRule compileRegex item rule = false := by
  unfold matchesRule
  rcases h with h | h | h | h
  · simp [h]
  · simp [h]
  · simp [SpanGroup.getAttr, h]
  · simp [SpanGroup.getAttr, h]

theorem claim_C5_witness :
    ((ruleEmptyVal.attr = "" ∨ ruleEmptyVal.value = ""
        ∨ gDb.attrs.lookup ruleEmptyVal.attr = none
        ∨ gDb.attrs.lookup ruleEmptyVal.attr = some "")
      ∧ matchesRule crNone gDb ruleEmptyVal = false)
    ∧ ((ruleEq.attr = "" ∨ ruleEq.value = ""
        ∨ gNoOp.attrs.lookup ruleEq.attr = none
        ∨ gNoOp.attrs.lookup ruleEq.attr = some "")
      ∧ matchesRule crNone gNoOp ruleEq = false) :=
  ⟨⟨Or.inr (Or.inl rfl), claim_C5 crNone gDb ruleEmptyVal (Or.inr (Or.inl rfl))⟩,
   ⟨Or.inr (Or.inr (Or.inl rfl)),
    claim_C5 crNone gNoOp ruleEq (Or.inr (Or.inr (Or.inl rfl)))⟩⟩

/-- C6: a regex rule whose pattern does not compile yields false from
the matcher (the exception is caught, never propagated), and the whole
simulation is unaffected by the presence of such a rule: removing it
from the rule list gives the identical result, so the remaining rules
and groups are evaluated as if it were not there. -/
theorem claim_C6 (compileRegex : String → Option (String → Bool))
    (item : SpanGroup) (d : Dataset) (pre post : List Rule)
    (ef gr days : ℚ) (rule : Rule)
    (hop : rule.operator = "regex")
    (hbad : compileRegex (trimStr rule.value) = none) :
    matchesRule compileRegex item rule = false
    ∧ simulateSampling compileRegex d (pre ++ rule :: post) ef gr days
        = simulateSampling compileRegex d (pre ++ post) ef gr days := by
  have hfalse := matchesRule_regex_none compileRegex rule hop hbad
  refine ⟨hfalse item, simulateSampling_congr compileRegex d _ _ ef gr days ?_⟩
  intro it
  rw [sortedRules_eq_filter, sortedRules_eq_filter, List.filter_append,
    List.filter_append, List.filter_append, List.filter_append,
    List.filter_cons_of_neg (by simp [hop]),
    List.filter_cons_of_pos (by simp [hop]),
    ← List.append_assoc, ← List.append_assoc]
  exact find?_middle_of_neg _ _ _ _ (hfalse it)

theorem claim_C6_witness :
    ruleBadRe.operator = "regex"
    ∧ crNone (trimStr ruleBadRe.value) = none
    ∧ matchesRule crNone gDb ruleBadRe = false
    ∧ simulateSampling crNone dsEx ([] ++ ruleBadRe :: [ruleEq]) 1 1 30
        = simulateSampling crNone dsEx ([] ++ [ruleEq]) 1 1 30 :=
  ⟨rfl, rfl,
   (claim_C6 crNone gDb dsEx [] [ruleEq] 1 1 30 ruleBadRe rfl rfl).1,
   (claim_C6 crNone gDb dsEx [] [ruleEq] 1 1 30 ruleBadRe rfl rfl).2⟩

/-- C8: on a dataset with an empty group list and no declared total the
simulator returns the all-zero result with an empty breakdown. -/
theorem claim_C8 (compileRegex : String → Option (String → Bool))
    (rules : List Rule) (ef gr days : ℚ) (d : Dataset)
    (hg : d.groups = []) (hdt : d.declaredTotal = none) :
    (simulateSampling compileRegex d rules ef gr days).totalRawCount = 0
    ∧ (simulateSampling compileRegex d rules ef gr days).totalSimulatedCount = 0
    ∧ (simulateSampling compileRegex d rules ef gr days).costReduction = 0
    ∧ (simulateSampling compileRegex d rules ef gr days).monthlyRawCount = 0
    ∧ (simulateSampling compileRegex d rules ef gr days).monthlySimulatedCount = 0
    ∧ (simulateSampling compileRegex d rules ef gr days).breakdown = [] := by
  simp [simulateSampling, hg, emptyResult]

theorem claim_C8_witness :
    dsEmpty.groups = [] ∧ dsEmpty.declaredTotal = none
    ∧ ((simulateSampling crNone dsEmpty [ruleEq] 2 (1/2) 7).totalRawCount = 0
      ∧ (simulateSampling crNone dsEmpty [ruleEq] 2 (1/2) 7).totalSimulatedCount = 0
      ∧ (simulateSampling crNone dsEmpty [ruleEq] 2 (1/2) 7).costReduction = 0
      ∧ (simulateSampling crNone dsEmpty [ruleEq] 2 (1/2) 7).monthlyRawCount = 0
      ∧ (simulateSampling crNone dsEmpty [ruleEq] 2 (1/2) 7).monthlySimulatedCount = 0
      ∧ (simulateSampling crNone dsEmpty [ruleEq] 2 (1/2) 7).breakdown = []) :=
  ⟨rfl, rfl, claim_C8 crNone [ruleEq] 2 (1/2) 7 dsEmpty rfl rfl⟩

/-- C2: before per-group evaluation the rule list is stable-sorted so
that every equals-operator rule precedes every other rule, preserving
relative order inside each partition; consequently, when a record is
matched by an equals rule and by a non-equals rule of the list, the
first match (the rule applied) is an equals rule, whatever the original
order. -/
theorem claim_C2 (compileRegex : String → Option (String → Bool))
    (rules : List Rule) (item : SpanGroup)
    (h1 : ∃ r ∈ rules, r.operator = "equals"
        ∧ matchesRule compileRegex item r = true)
    (h2 : ∃ r ∈ rules, r.operator ≠ "equals"
        ∧ matchesRule compileRegex item r = true) :
    sortedRules rules
      = rules.filter (fun r => r.operator == "equals")
        ++ rules.filter (fun r => !(r.operator == "equals"))
    ∧ ∃ rFst, (sortedRules rules).find? (fun r => matchesRule compileRegex item r)
          = some rFst
        ∧ rFst.operator = "equals" := by
  refine ⟨sortedRules_eq_filter rules, ?_⟩
  obtain ⟨r, hmem, hop, hmatch⟩ := h1
  have hmemf : r ∈ rules.filter (fun r => r.operator == "equals") :=
    List.mem_filter.mpr ⟨hmem, by simp [hop]⟩
  have hsome : ((rules.filter (fun r => r.operator == "equals")).find?
      (fun r => matchesRule compileRegex item r)).isSome :=
    List.find?_isSome.mpr ⟨r, hmemf, hmatch⟩
  obtain ⟨rFst, hfind⟩ := Option.isSome_iff_exists.mp hsome
  refine ⟨rFst, ?_, ?_⟩
  · rw [sortedRules_eq_filter, List.find?_append, hfind, Option.or_some]
  · have hmemFst := List.mem_of_find?_eq_some hfind
    have hFst := (List.mem_filter.mp hmemFst).2
    simpa using hFst

theorem claim_C2_witness :
    (∃ r ∈ [ruleCon, ruleEq], r.operator = "equals"
        ∧ matchesRule crNone gDb r = true)
    ∧ (∃ r ∈ [ruleCon, ruleEq], r.operator ≠ "equals"
        ∧ matchesRule crNone gDb r = true)
    ∧ (sortedRules [ruleCon, ruleEq]
        = [ruleCon, ruleEq].filter (fun r => r.operator == "equals")
          ++ [ruleCon, ruleEq].filter (fun r => !(r.operator == "equals"))
      ∧ ∃ rFst, (sortedRules [ruleCon, ruleEq]).find?
            (fun r => matchesRule crNone gDb r) = some rFst
          ∧ rFst.operator = "equals") :=
  ⟨⟨ruleEq, by decide, rfl, by decide⟩,
   ⟨ruleCon, by decide, by decide, by decide⟩,
   claim_C2 crNone [ruleCon, ruleEq] gDb
     ⟨ruleEq, by decide, rfl, by decide⟩
     ⟨ruleCon, by decide, by decide, by decide⟩⟩

/-- C10: a rule whose value is non-empty but consists only of whitespace
is not screened out by the early exit (which tests the untrimmed value),
yet the comparison uses the trimmed, hence empty, value; with the
contains operator (or any unrecognized operator, which falls back to
containment) such a rule matches every record whose value for the
rule's attribute is non-empty — containment of the empty string always
holds — so the rule participates in first-match selection for every
such group instead of being inactive. -/
theorem claim_C10 (compileRegex : String → Option (String → Bool))
    (item : SpanGroup) (rule : Rule)
    (hattr : rule.attr ≠ "") (hval : rule.value ≠ "")
    (hws : trimStr rule.value = "")
    (hop1 : rule.operator ≠ "equals") (hop2 : rule.operator ≠ "starts_with")
    (hop3 : rule.operator ≠ "ends_with") (hop4 : rule.operator ≠ "regex")
    (hpresent : item.getAttr rule.attr ≠ "") :
    matchesRule compileRegex item rule = true
    ∧ ∀ rules : List Rule, rule ∈ rules →
        ((sortedRules rules).find?
          (fun r => matchesRule compileRegex item r)).isSome = true := by
  have hmatch : matchesRule compileRegex item rule = true := by
    unfold matchesRule
    rw [if_neg (by simp [hattr, hval])]
    by_cases hop0 : rule.operator = ""
    · simp [hop0, hws, hpresent, toLowerStr, strContains, listContains_nil]
    · simp [hop0, hws, hpresent, hop1, hop2, hop3, hop4, toLowerStr,
        strContains, listContains_nil]
  refine ⟨hmatch, ?_⟩
  intro rules hmem
  rw [List.find?_isSome]
  exact ⟨rule, by simpa [sortedRules, List.mem_mergeSort] using hmem, hmatch⟩

theorem claim_C10_witness :
    ruleWs.attr ≠ "" ∧ ruleWs.value ≠ "" ∧ trimStr ruleWs.value = ""
    ∧ ruleWs.operator ≠ "equals" ∧ ruleWs.operator ≠ "starts_with"
    ∧ ruleWs.operator ≠ "ends_with" ∧ ruleWs.operator ≠ "regex"
    ∧ gHttp.getAttr ruleWs.attr ≠ ""
    ∧ (matchesRule crNone gHttp ruleWs = true
      ∧ ∀ rules : List Rule, ruleWs ∈ rules →
          ((sortedRules rules).find?
            (fun r => matchesRule crNone gHttp r)).isSome = true) :=
  ⟨by decide, by decide, by decide, by decide, by decide, by decide, by decide,
   by decide,
   claim_C10 crNone gHttp ruleWs (by decide) (by decide) (by decide) (by decide)
     (by decide) (by decide) (by decide) (by decide)⟩

/-- C1: on a non-empty dataset the simulator emits the per-group rows in
dataset order, exactly one per input group (they are the breakdown's
first `d.groups.length` entries, whether or not any rule matched); each
row's sampling rate is the rate over 100 of the first matching rule of
the pre-sorted list, or the global rate when none matches; each row's
simulated count is the group count times that rate times the expansion
factor; and the reported simulated total is the sum of the simulated
counts of all emitted rows. -/
theorem claim_C1 (compileRegex : String → Option (String → Bool))
    (d : Dataset) (rules : List Rule) (ef gr days : ℚ) (hg : d.groups ≠ []) :
    (simulateSampling compileRegex d rules ef gr days).breakdown.take d.groups.length
        = d.groups.map (mkRow compileRegex gr ef (sortedRules rules))
    ∧ (∀ item : SpanGroup,
        (mkRow compileRegex gr ef (sortedRules rules) item).samplingRate
          = (match (sortedRules rules).find?
                (fun r => matchesRule compileRegex item r) with
             | some r => r.rate / 100
             | none => gr)
        ∧ (mkRow compileRegex gr ef (sortedRules rules) item).simulatedCount
          = (item.count : ℚ)
              * (mkRow compileRegex gr ef (sortedRules rules) item).samplingRate
              * ef
        ∧ (mkRow compileRegex gr ef (sortedRules rules) item).rawCount
          = (item.count : ℚ))
    ∧ (simulateSampling compileRegex d rules ef gr days).totalSimulatedCount
        = ((simulateSampling compileRegex d rules ef gr days).breakdown.map
            BreakdownRow.simulatedCount).sum := by
  rw [simulateSampling_nonempty compileRegex d rules ef gr days hg]
  have hlen : (d.groups.map (mkRow compileRegex gr ef (sortedRules rules))).length
      = d.groups.length := List.length_map _ _
  refine ⟨?_, ?_, ?_⟩
  · show (breakdownOf compileRegex d rules gr ef).take d.groups.length
        = d.groups.map (mkRow compileRegex gr ef (sortedRules rules))
    unfold breakdownOf rowsOf
    by_cases hm : missingOf d > 0
    · rw [if_pos hm, ← hlen, List.take_left]
    · rw [if_neg hm, ← hlen, List.take_length]
  · intro item
    unfold mkRow
    cases hf : (sortedRules rules).find? (fun r => matchesRule compileRegex item r) <;>
      simp
  · show simTotalOf compileRegex d rules gr ef
        = ((breakdownOf compileRegex d rules gr ef).map
            BreakdownRow.simulatedCount).sum
    unfold simTotalOf breakdownOf
    by_cases hm : missingOf d > 0
    · rw [if_pos hm, if_pos hm, List.map_append, List.sum_append]
      simp [otherRow, groupsSimOf]
    · rw [if_neg hm, if_neg hm]
      rfl

theorem claim_C1_witness :
    dsEx.groups ≠ []
    ∧ ((simulateSampling crNone dsEx [ruleEq] 1 1 30).breakdown.take dsEx.groups.length
          = dsEx.groups.map (mkRow crNone 1 1 (sortedRules [ruleEq]))
      ∧ (∀ item : SpanGroup,
          (mkRow crNone 1 1 (sortedRules [ruleEq]) item).samplingRate
            = (match (sortedRules [ruleEq]).find?
                  (fun r => matchesRule crNone item r) with
               | some r => r.rate / 100
               | none => 1)
          ∧ (mkRow crNone 1 1 (sortedRules [ruleEq]) item).simulatedCount
            = (item.count : ℚ)
                * (mkRow crNone 1 1 (sortedRules [ruleEq]) item).samplingRate * 1
          ∧ (mkRow crNone 1 1 (sortedRules [ruleEq]) item).rawCount
            = (item.count : ℚ))
      ∧ (simulateSampling crNone dsEx [ruleEq] 1 1 30).totalSimulatedCount
          = ((simulateSampling crNone dsEx [ruleEq] 1 1 30).breakdown.map
              BreakdownRow.simulatedCount).sum) :=
  ⟨by decide, claim_C1 crNone dsEx [ruleEq] 1 1 30 (by decide)⟩

/-- C3: on a non-empty dataset the total raw count is the declared total
when one is supplied (trusted as-is, even if smaller than the group sum)
and the sum of the group counts otherwise; when the missing count
(total raw count minus group sum) is positive, exactly one synthetic
"(other)" row is appended after the per-group rows, carrying the missing
count as raw count, the global rate as sampling rate, missing times
global rate times expansion factor as simulated count, and the label
"global", and that simulated count is added to the total; when the
missing count is not positive, the breakdown is exactly the per-group
rows and the total is their sum alone. -/
theorem claim_C3 (compileRegex : String → Option (String → Bool))
    (d : Dataset) (rules : List Rule) (ef gr days : ℚ) (hg : d.groups ≠ []) :
    (simulateSampling compileRegex d rules ef gr days).totalRawCount = totalRawOf d
    ∧ totalRawOf d = (match d.declaredTotal with
        | some t => (t : ℚ)
        | none => (sumCounts d.groups : ℚ))
    ∧ (missingOf d > 0 →
        (simulateSampling compileRegex d rules ef gr days).breakdown
            = d.groups.map (mkRow compileRegex gr ef (sortedRules rules))
              ++ [otherRow (missingOf d) gr ef]
        ∧ (otherRow (missingOf d) gr ef).rawCount = missingOf d
        ∧ (otherRow (missingOf d) gr ef).samplingRate = gr
        ∧ (otherRow (missingOf d) gr ef).simulatedCount = missingOf d * gr * ef
        ∧ (otherRow (missingOf d) gr ef).matchedRule = "global"
        ∧ (simulateSampling compileRegex d rules ef gr days).totalSimulatedCount
            = ((d.groups.map (mkRow compileRegex gr ef (sortedRules rules))).map
                BreakdownRow.simulatedCount).sum + missingOf d * gr * ef)
    ∧ (missingOf d ≤ 0 →
        (simulateSampling compileRegex d rules ef gr days).breakdown
            = d.groups.map (mkRow compileRegex gr ef (sortedRules rules))
        ∧ (simulateSampling compileRegex d rules ef gr days).totalSimulatedCount
            = ((d.groups.map (mkRow compileRegex gr ef (sortedRules rules))).map
                BreakdownRow.simulatedCount).sum) := by
  rw [simulateSampling_nonempty compileRegex d rules ef gr days hg]
  refine ⟨rfl, rfl, ?_, ?_⟩
  · intro hm
    refine ⟨?_, rfl, rfl, rfl, rfl, ?_⟩
    · show breakdownOf compileRegex d rules gr ef = _
      unfold breakdownOf rowsOf
      rw [if_pos hm]
    · show simTotalOf compileRegex d rules gr ef = _
      unfold simTotalOf groupsSimOf rowsOf
      rw [if_pos hm]
  · intro hm
    have hm' : ¬ missingOf d > 0 := not_lt.mpr hm
    refine ⟨?_, ?_⟩
    · show breakdownOf compileRegex d rules gr ef = _
      unfold breakdownOf rowsOf
      rw [if_neg hm']
    · show simTotalOf compileRegex d rules gr ef = _
      unfold simTotalOf groupsSimOf rowsOf
      rw [if_neg hm']

theorem claim_C3_witness :
    dsDecl.groups ≠ []
    ∧ missingOf dsDecl > 0
    ∧ (simulateSampling crNone dsDecl [] 1 1 30).breakdown
        = dsDecl.groups.map (mkRow crNone 1 1 (sortedRules []))
          ++ [otherRow (missingOf dsDecl) 1 1]
    ∧ (otherRow (missingOf dsDecl) 1 1).rawCount = missingOf dsDecl
    ∧ (simulateSampling crNone dsDecl [] 1 1 30).totalSimulatedCount
        = ((dsDecl.groups.map (mkRow crNone 1 1 (sortedRules []))).map
            BreakdownRow.simulatedCount).sum + missingOf dsDecl * 1 * 1 := by
  have hm : missingOf dsDecl > 0 := by
    norm_num [missingOf, totalRawOf, dsDecl, sumCounts]
  have h := (claim_C3 crNone dsDecl [] 1 1 30 (by decide)).2.2.1 hm
  exact ⟨by decide, hm, h.1, h.2.1, h.2.2.2.2.2⟩

/-- C4: on a non-empty dataset the reported cost reduction is
`max 0 ((raw - simulated) / raw * 100)` when the raw total is positive
and 0 otherwise (no division by zero), hence it is never negative, even
when the simulated volume exceeds the raw volume. -/
theorem claim_C4 (compileRegex : String → Option (String → Bool))
    (d : Dataset) (rules : List Rule) (ef gr days : ℚ) (hg : d.groups ≠ []) :
    (simulateSampling compileRegex d rules ef gr days).costReduction
      = (if (simulateSampling compileRegex d rules ef gr days).totalRawCount > 0 then
          max 0 (((simulateSampling compileRegex d rules ef gr days).totalRawCount
              - (simulateSampling compileRegex d rules ef gr days).totalSimulatedCount)
            / (simulateSampling compileRegex d rules ef gr days).totalRawCount * 100)
        else 0)
    ∧ 0 ≤ (simulateSampling compileRegex d rules ef gr days).costReduction := by
  rw [simulateSampling_nonempty compileRegex d rules ef gr days hg]
  constructor
  · show max 0 (if totalRawOf d > 0 then _ else 0) = _
    by_cases hp : totalRawOf d > 0
    · rw [if_pos hp, if_pos hp]
    · rw [if_neg hp, if_neg hp, max_self]
  · exact le_max_left _ _

theorem claim_C4_witness :
    dsEx.groups ≠ []
    ∧ ((simulateSampling crNone dsEx [] 5 1 30).costReduction
        = (if (simulateSampling crNone dsEx [] 5 1 30).totalRawCount > 0 then
            max 0 (((simulateSampling crNone dsEx [] 5 1 30).totalRawCount
                - (simulateSampling crNone dsEx [] 5 1 30).totalSimulatedCount)
              / (simulateSampling crNone dsEx [] 5 1 30).totalRawCount * 100)
          else 0)
      ∧ 0 ≤ (simulateSampling crNone dsEx [] 5 1 30).costReduction) :=
  ⟨by decide, claim_C4 crNone dsEx [] 5 1 30 (by decide)⟩

/-- C7: the monthly projections are the linear extrapolation of the
totals by the factor `30 / periodDays`, independent of calendar months;
with a 7 day period and a raw total of 700 the monthly raw count is
exactly `700 * (30 / 7) = 3000` (arithmetic is modelled exactly over
the rationals). -/
theorem claim_C7 (compileRegex : String → Option (String → Bool))
    (d : Dataset) (rules : List Rule) (ef gr : ℚ) (days : ℕ) (hd : 0 < days) :
    (simulateSampling compileRegex d rules ef gr (days : ℚ)).monthlyRawCount
      = (simulateSampling compileRegex d rules ef gr (days : ℚ)).totalRawCount
          * (30 / (days : ℚ))
    ∧ (simulateSampling compileRegex d rules ef gr (days : ℚ)).monthlySimulatedCount
      = (simulateSampling compileRegex d rules ef gr (days : ℚ)).totalSimulatedCount
          * (30 / (days : ℚ))
    ∧ (days = 7 →
        (simulateSampling compileRegex d rules ef gr (days : ℚ)).totalRawCount = 700 →
        (simulateSampling compileRegex d rules ef gr (days : ℚ)).monthlyRawCount
          = 3000) := by
  by_cases hg : d.groups = []
  · refine ⟨?_, ?_, ?_⟩
    · simp [simulateSampling, hg, emptyResult]
    · simp [simulateSampling, hg, emptyResult]
    · intro h7 h700
      rw [show (simulateSampling compileRegex d rules ef gr (days : ℚ)).totalRawCount
          = 0 from by simp [simulateSampling, hg, emptyResult]] at h700
      norm_num at h700
  · rw [simulateSampling_nonempty compileRegex d rules ef gr (days : ℚ) hg]
    refine ⟨rfl, rfl, ?_⟩
    intro h7 h700
    show totalRawOf d * (30 / (days : ℚ)) = 3000
    rw [show totalRawOf d = 700 from h700, h7]
    norm_num

theorem claim_C7_witness :
    0 < 7
    ∧ ((simulateSampling crNone dsEx [ruleEq] 1 1 ((7 : ℕ) : ℚ)).monthlyRawCount
        = (simulateSampling crNone dsEx [ruleEq] 1 1 ((7 : ℕ) : ℚ)).totalRawCount
            * (30 / ((7 : ℕ) : ℚ))
      ∧ (simulateSampling crNone dsEx [ruleEq] 1 1 ((7 : ℕ) : ℚ)).monthlySimulatedCount
        = (simulateSampling crNone dsEx [ruleEq] 1 1 ((7 : ℕ) : ℚ)).totalSimulatedCount
            * (30 / ((7 : ℕ) : ℚ))
      ∧ ((7 : ℕ) = 7 →
          (simulateSampling crNone dsEx [ruleEq] 1 1 ((7 : ℕ) : ℚ)).totalRawCount = 700 →
          (simulateSampling crNone dsEx [ruleEq] 1 1 ((7 : ℕ) : ℚ)).monthlyRawCount
            = 3000)) :=
  ⟨by decide, claim_C7 crNone dsEx [ruleEq] 1 1 7 (by decide)⟩

/-- C9: raising the rate of any one rule of the list, all other inputs
fixed, never decreases the simulated total.  The rule lists range over
the simulator's contract domain: the expansion factor is quantified over
the non-negative rationals (the contract requires a positive factor) and
group counts are non-negative by the data model. -/
theorem claim_C9 (compileRegex : String → Option (String → Bool))
    (d : Dataset) (pre post : List Rule) (r : Rule) (q : ℚ)
    (ef gr days : ℚ) (hef : 0 ≤ ef) (hr : r.rate ≤ q) :
    (simulateSampling compileRegex d (pre ++ r :: post) ef gr days).totalSimulatedCount
      ≤ (simulateSampling compileRegex d (pre ++ { r with rate := q } :: post)
          ef gr days).totalSimulatedCount := by
  by_cases hg : d.groups = []
  · simp [simulateSampling, hg, emptyResult]
  · rw [simulateSampling_nonempty compileRegex d _ ef gr days hg,
      simulateSampling_nonempty compileRegex d _ ef gr days hg]
    show simTotalOf compileRegex d (pre ++ r :: post) gr ef
        ≤ simTotalOf compileRegex d (pre ++ { r with rate := q } :: post) gr ef
    obtain ⟨a, b, hs1, hs2⟩ := sortedRules_insert_shape pre post r q
    have hsum : groupsSimOf compileRegex d (pre ++ r :: post) gr ef
        ≤ groupsSimOf compileRegex d (pre ++ { r with rate := q } :: post) gr ef := by
      unfold groupsSimOf rowsOf
      rw [hs1, hs2, List.map_map, List.map_map]
      exact List.sum_le_sum
        (fun item _ => mkRow_simulated_mono compileRegex gr ef hef a b r q hr item)
    unfold simTotalOf
    by_cases hm : missingOf d > 0
    · rw [if_pos hm, if_pos hm]
      exact add_le_add_right hsum _
    · rw [if_neg hm, if_neg hm]
      exact hsum

theorem claim_C9_witness :
    (0 : ℚ) ≤ 1
    ∧ ruleEq.rate ≤ 20
    ∧ (simulateSampling crNone dsEx ([] ++ ruleEq :: []) 1 1 30).totalSimulatedCount
        ≤ (simulateSampling crNone dsEx ([] ++ { ruleEq with rate := 20 } :: []) 1 1
            30).totalSimulatedCount :=
  ⟨by decide, by decide,
   claim_C9 crNone dsEx [] [] ruleEq 20 1 1 30 (by decide) (by decide)⟩

end SampleRateSimulator
